import Mathlib

set_option maxRecDepth 100000

/-!
Shallow embedding of `src/lib.rs` (Soroban contract `FanRewardsNftMarket`):
a digital-asset registry and marketplace with mint / transfer / buy /
fan-point operations over instance storage.

Modelling conventions:
* `Address` and `Bytes` (both opaque to the contract) are modelled as `Nat`
  and `List Nat`.
* Machine integers: `u128` and `u32` values are `Nat`, `i128` values are
  `Int`; the checked Rust operations (`checked_add`, `checked_mul`,
  `checked_sub`, `checked_div`) are modelled with explicit range tests
  against `2^128` resp. `[-2^127, 2^127 - 1]`.  Rust `i128` division
  truncates toward zero, which is `Int.tdiv`.
* Instance storage is a `State` record whose per-id / per-address entries
  are `Option`-valued functions (`none` = key absent, matching
  `storage().get` returning `None`).
* `require_auth` and the external payment-token contract are collaborators:
  operations take an `auth : Address → Bool` oracle and (for `buy`) a
  `tr : Address → Address → Address → Int → Bool` oracle saying whether a
  given token invocation succeeds.
* Abrupt failures are a third outcome `Outcome.trap`: a failed
  `require_auth` and a failed `env.invoke_contract` both panic in the host
  (the source comments this for `invoke_contract`), they do not return a
  typed `Error`.
* A Soroban invocation that ends in `Err` or a trap is rolled back by the
  host: no storage change of the call survives.  Operations below return
  the raw storage state at the moment they return (threading every `set`),
  and `committed` applies the host rule.
-/

namespace FanRewards

/-- Principals (Soroban `Address`), opaque to the contract. -/
abbrev Address := Nat

/-- Metadata blobs (Soroban `Bytes`), opaque to the contract. -/
abbrev ContractBytes := List Nat

/-- Upper bound of `u128`: `2^128 - 1`. -/
def U128_MAX : Nat := 2 ^ 128 - 1

/-- Lower bound of `i128`: `-2^127`. -/
def I128_MIN : Int := -(2 ^ 127)

/-- Upper bound of `i128`: `2^127 - 1`. -/
def I128_MAX : Int := 2 ^ 127 - 1

/-- Rust `u128::checked_add`: `none` when the sum leaves `u128` range. -/
def u128_checked_add (a b : Nat) : Option Nat :=
  if a + b ≤ U128_MAX then some (a + b) else none

/-- Rust `i128::checked_mul`: `none` when the product leaves `i128` range. -/
def i128_checked_mul (a b : Int) : Option Int :=
  if I128_MIN ≤ a * b ∧ a * b ≤ I128_MAX then some (a * b) else none

/-- Rust `i128::checked_sub`: `none` when the difference leaves `i128` range. -/
def i128_checked_sub (a b : Int) : Option Int :=
  if I128_MIN ≤ a - b ∧ a - b ≤ I128_MAX then some (a - b) else none

/-- Rust `i128::checked_div`: truncated division; `none` on division by
zero or on the single overflowing case `i128::MIN / -1`. -/
def i128_checked_div (a b : Int) : Option Int :=
  if b = 0 then none
  else if a = I128_MIN ∧ b = -1 then none
  else some (a.tdiv b)

/-- Rust `as u128` on an `i128` value: two's-complement reinterpretation,
i.e. reduction mod `2^128`. -/
def intAsU128 (x : Int) : Nat := (x % (2 ^ 128 : Int)).toNat

/-- The contract's error enum (`#[contracterror] pub enum Error`). -/
inductive Error where
  | NotAuthorized
  | TokenNotFound
  | InvalidRoyalty
  | InvalidPrice
  | InvalidPaymentToken
  | Overflow
  | NotOwner
  | SameOwner
  | PaymentFailed
  deriving DecidableEq

/-- Outcome of invoking a contract function: a returned value, a returned
typed `Err`, or an abrupt host panic (failed `require_auth`, failed
`invoke_contract`). -/
inductive Outcome (α : Type) where
  | ok : α → Outcome α
  | err : Error → Outcome α
  | trap : Outcome α
  deriving DecidableEq

/-- Map over the value of a successful outcome. -/
def Outcome.map (f : α → β) : Outcome α → Outcome β
  | .ok a => .ok (f a)
  | .err e => .err e
  | .trap => .trap

/-- Instance storage of the contract: one component per `DataKey`
constructor.  `none` models an absent key. -/
structure State where
  nextId : Option Nat
  defaultPayToken : Option Address
  owner : Nat → Option Address
  creator : Nat → Option Address
  royaltyBps : Nat → Option Nat
  uri : Nat → Option ContractBytes
  fanPoints : Address → Option Nat

/-- The state of a freshly deployed instance: every key absent. -/
def initialState : State :=
  ⟨none, none, fun _ => none, fun _ => none, fun _ => none, fun _ => none,
    fun _ => none⟩

/-- Point update of a `Nat`-keyed storage map. -/
def upd {α : Type} (f : Nat → Option α) (k : Nat) (v : α) : Nat → Option α :=
  fun i => if i = k then some v else f i

/-- Host semantics of a finished invocation: an `ok` result commits the
written state, while an `Err` return or a trap makes the whole invocation
fail and the host discards its storage writes (the spec's enclosing
transactional mechanism). -/
def committed {α : Type} (s₀ : State) (o : Outcome α) (s : State) : State :=
  match o with
  | .ok _ => s
  | .err _ => s₀
  | .trap => s₀

/-- Model of `require_auth`: consults the authorization oracle; on failure
the host panics (no typed error is returned to the contract). -/
def requireAuth (auth : Address → Bool) (a : Address) : Outcome Unit :=
  if auth a then .ok () else .trap

/-- Helper `next_id`: reads the `NextId` counter (absent = 0), bumps it with
a checked add, persists and returns the new value. -/
def next_id (s : State) : Outcome Nat × State :=
  let current : Nat := s.nextId.getD 0
  match u128_checked_add current 1 with
  | none => (.err .Overflow, s)
  | some next => (.ok next, { s with nextId := some next })

/-- Contract fn `set_default_payment_token`. -/
def set_default_payment_token (auth : Address → Bool) (s : State)
    (admin token : Address) : Outcome Unit × State :=
  match requireAuth auth admin with
  | .ok _ => (.ok (), { s with defaultPayToken := some token })
  | .err e => (.err e, s)
  | .trap => (.trap, s)

/-- Contract fn `get_default_payment_token`. -/
def get_default_payment_token (s : State) : Option Address :=
  s.defaultPayToken

/-- Contract fn `mint`: auth gate, royalty-bps bound, counter bump, then the
four field writes. -/
def mint (auth : Address → Bool) (s : State) (creator initial_owner : Address)
    (royalty_bps : Nat) (uri : ContractBytes) : Outcome Nat × State :=
  match requireAuth auth creator with
  | .err e => (.err e, s)
  | .trap => (.trap, s)
  | .ok _ =>
    if 10000 < royalty_bps then (.err .InvalidRoyalty, s)
    else
      match next_id s with
      | (.ok id, s₁) =>
        (.ok id,
          { s₁ with
            owner := upd s₁.owner id initial_owner
            creator := upd s₁.creator id creator
            royaltyBps := upd s₁.royaltyBps id royalty_bps
            uri := upd s₁.uri id uri })
      | (.err e, s₁) => (.err e, s₁)
      | (.trap, s₁) => (.trap, s₁)

/-- The record returned by `get_info` (`NftInfo`). -/
structure NftInfo where
  token_id : Nat
  owner : Address
  creator : Address
  royalty_bps : Nat
  uri : ContractBytes
  deriving DecidableEq

/-- Contract fn `get_info`: reads the four fields, `TokenNotFound` when any
is absent; no authorization, no writes. -/
def get_info (s : State) (token_id : Nat) : Outcome NftInfo × State :=
  match s.owner token_id with
  | none => (.err .TokenNotFound, s)
  | some ow =>
    match s.creator token_id with
    | none => (.err .TokenNotFound, s)
    | some cr =>
      match s.royaltyBps token_id with
      | none => (.err .TokenNotFound, s)
      | some bps =>
        match s.uri token_id with
        | none => (.err .TokenNotFound, s)
        | some u => (.ok ⟨token_id, ow, cr, bps, u⟩, s)

/-- Contract fn `transfer`: existence, then ownership, then authorization of
`from`, then the self-transfer check, then the single owner write. -/
def transfer (auth : Address → Bool) (s : State) (token_id : Nat)
    (src dst : Address) : Outcome Unit × State :=
  match s.owner token_id with
  | none => (.err .TokenNotFound, s)
  | some ow =>
    if ow ≠ src then (.err .NotOwner, s)
    else
      match requireAuth auth src with
      | .err e => (.err e, s)
      | .trap => (.trap, s)
      | .ok _ =>
        if src = dst then (.err .SameOwner, s)
        else (.ok (), { s with owner := upd s.owner token_id dst })

/-- Contract fn `get_fan_points`: absent entry reads as 0. -/
def get_fan_points (s : State) (fan : Address) : Nat :=
  (s.fanPoints fan).getD 0

/-- Contract fn `award_fan_points`: auth gate, checked add, unconditional
write of the new total (there is no `points == 0` early return here). -/
def award_fan_points (auth : Address → Bool) (s : State)
    (granter fan : Address) (points : Nat) : Outcome Unit × State :=
  match requireAuth auth granter with
  | .err e => (.err e, s)
  | .trap => (.trap, s)
  | .ok _ =>
    let current : Nat := (s.fanPoints fan).getD 0
    match u128_checked_add current points with
    | none => (.err .Overflow, s)
    | some new_total =>
      (.ok (), { s with fanPoints := upd s.fanPoints fan new_total })

/-- Helper `add_fan_points` (used by `buy`): early `Ok` with no write when
`points == 0`, otherwise checked add and write. -/
def add_fan_points (s : State) (fan : Address) (points : Nat) :
    Outcome Unit × State :=
  if points = 0 then (.ok (), s)
  else
    let current : Nat := (s.fanPoints fan).getD 0
    match u128_checked_add current points with
    | none => (.err .Overflow, s)
    | some new_total =>
      (.ok (), { s with fanPoints := upd s.fanPoints fan new_total })

/-- Helper `safe_mul_div`: checked multiply then checked divide, `none` on a
zero divisor or any overflow.  No widened intermediate product is used: the
multiplication itself is a plain `i128` checked multiply. -/
def safe_mul_div (a b c : Int) : Option Int :=
  if c = 0 then none
  else
    match i128_checked_mul a b with
    | none => none
    | some prod => i128_checked_div prod c

/-- One performed invocation of the payment-token contract
(`xfer_from(from, to, amount)` on `token`). -/
structure TokenCall where
  token : Address
  src : Address
  dst : Address
  amount : Int
  deriving DecidableEq

/-- Helper `token_transfer_from`: amounts `≤ 0` are a successful no-op with
no external invocation; otherwise the token contract is invoked once and a
failing invocation panics in the host (`invoke_contract` has no error
return).  The list records the invocations actually made. -/
def token_transfer_from (tr : Address → Address → Address → Int → Bool)
    (token src dst : Address) (amount : Int) :
    Outcome Unit × List TokenCall :=
  if amount ≤ 0 then (.ok (), [])
  else if tr token src dst amount then (.ok (), [⟨token, src, dst, amount⟩])
  else (.trap, [⟨token, src, dst, amount⟩])

/-- Contract fn `buy`: auth gate, price check, asset lookups, payment-token
resolution, royalty split, the two token transfers, then the owner write and
the fan-point accrual.  Returns the outcome, the raw storage state at
return, and the payment-token invocations made. -/
def buy (auth : Address → Bool) (tr : Address → Address → Address → Int → Bool)
    (s : State) (token_id : Nat) (buyer : Address) (price : Int)
    (payment_token : Option Address) :
    Outcome Unit × State × List TokenCall :=
  match requireAuth auth buyer with
  | .err e => (.err e, s, [])
  | .trap => (.trap, s, [])
  | .ok _ =>
    if price ≤ 0 then (.err .InvalidPrice, s, [])
    else
      match s.owner token_id with
      | none => (.err .TokenNotFound, s, [])
      | some ow =>
        if ow = buyer then (.err .SameOwner, s, [])
        else
          match s.creator token_id with
          | none => (.err .TokenNotFound, s, [])
          | some cr =>
            match s.royaltyBps token_id with
            | none => (.err .TokenNotFound, s, [])
            | some bps =>
              match (match payment_token with
                     | some a => some a
                     | none => s.defaultPayToken) with
              | none => (.err .InvalidPaymentToken, s, [])
              | some pay_token =>
                match safe_mul_div price (bps : Int) 10000 with
                | none => (.err .Overflow, s, [])
                | some royalty =>
                  match i128_checked_sub price royalty with
                  | none => (.err .Overflow, s, [])
                  | some seller_amount =>
                    match token_transfer_from tr pay_token buyer cr royalty with
                    | (.err e, c₁) => (.err e, s, c₁)
                    | (.trap, c₁) => (.trap, s, c₁)
                    | (.ok _, c₁) =>
                      match token_transfer_from tr pay_token buyer ow
                          seller_amount with
                      | (.err e, c₂) => (.err e, s, c₁ ++ c₂)
                      | (.trap, c₂) => (.trap, s, c₁ ++ c₂)
                      | (.ok _, c₂) =>
                        let s₁ : State :=
                          { s with owner := upd s.owner token_id buyer }
                        let points : Nat :=
                          if 0 < price then intAsU128 price else 0
                        match add_fan_points s₁ buyer points with
                        | (.ok _, s₂) => (.ok (), s₂, c₁ ++ c₂)
                        | (.err e, s₂) => (.err e, s₂, c₁ ++ c₂)
                        | (.trap, s₂) => (.trap, s₂, c₁ ++ c₂)

/-!
Concrete fixtures used by witnesses and counterexamples.
-/

/-- Authorization oracle that authorizes every principal. -/
def authT : Address → Bool := fun _ => true

/-- Payment-token oracle on which every transfer succeeds. -/
def trT : Address → Address → Address → Int → Bool := fun _ _ _ _ => true

/-- Payment-token oracle on which every transfer fails (the invoked token
contract panics). -/
def trF : Address → Address → Address → Int → Bool := fun _ _ _ _ => false

/-- A state with one minted asset: id 1, owner 2, creator 3, royalty 500
bps, and default payment token 7. -/
def s0 : State :=
  { nextId := some 1, defaultPayToken := some 7,
    owner := upd (fun _ => none) 1 2,
    creator := upd (fun _ => none) 1 3,
    royaltyBps := upd (fun _ => none) 1 500,
    uri := upd (fun _ => none) 1 [1, 2],
    fanPoints := fun _ => none }

/-- Like `s0` but with no default payment token configured. -/
def s0nd : State := { s0 with defaultPayToken := none }

/-!
Helper lemmas about the checked arithmetic.
-/

/-- A successful checked `u128` addition returns the exact sum. -/
theorem u128_checked_add_eq {a b c : Nat} (h : u128_checked_add a b = some c) :
    c = a + b := by
  unfold u128_checked_add at h
  split at h
  · exact (Option.some.inj h).symm
  · exact Option.noConfusion h

/-- A successful checked `u128` addition implies the sum is in range. -/
theorem u128_checked_add_le {a b c : Nat} (h : u128_checked_add a b = some c) :
    a + b ≤ U128_MAX := by
  unfold u128_checked_add at h
  split at h
  · assumption
  · exact Option.noConfusion h

/-- A successful checked `i128` subtraction returns the exact difference. -/
theorem i128_checked_sub_eq {a b d : Int} (h : i128_checked_sub a b = some d) :
    d = a - b := by
  unfold i128_checked_sub at h
  split at h
  · exact (Option.some.inj h).symm
  · exact Option.noConfusion h

/-- A successful `safe_mul_div` by 10000 on non-negative operands returns
the floor of the mathematical quotient. -/
theorem safe_mul_div_pos_eq {a : Int} {b : Nat} {r : Int} (ha : 0 ≤ a)
    (h : safe_mul_div a (b : Int) 10000 = some r) :
    r = a * (b : Int) / 10000 ∧ 0 ≤ r := by
  have hb : (0 : Int) ≤ (b : Int) := Int.natCast_nonneg b
  have hprod : 0 ≤ a * (b : Int) := mul_nonneg ha hb
  cases hm : i128_checked_mul a (b : Int) with
  | none => simp [safe_mul_div, hm] at h
  | some prod =>
    have hpe : prod = a * (b : Int) := by
      unfold i128_checked_mul at hm
      split at hm
      · exact (Option.some.inj hm).symm
      · exact Option.noConfusion hm
    simp [safe_mul_div, hm] at h
    unfold i128_checked_div at h
    rw [if_neg (by norm_num), if_neg (by simp)] at h
    have hr : r = prod.tdiv 10000 := (Option.some.inj h).symm
    subst hpe
    rw [hr, Int.tdiv_eq_ediv hprod (by norm_num)]
    exact ⟨rfl, Int.ediv_nonneg hprod (by norm_num)⟩

/-- Claim C5 (amended): in `safe_mul_div` the royalty is computed with a
plain checked `i128` multiplication — there is no widened intermediate
product.  For `0 < price` and `royaltyBps ≤ 10000` the computation succeeds
exactly when the intermediate product `price * royaltyBps` itself fits in
`i128`, in which case it returns `floor(price * royaltyBps / 10000)`; when
the product overflows it fails (so `buy` reports `Overflow`) even if the
final quotient is representable.  The subtraction `price - royalty` is the
checked `i128_checked_sub`, failing rather than wrapping. -/
theorem safe_mul_div_checked (price : Int) (bps : Nat)
    (hp : 0 < price) (hbps : bps ≤ 10000) :
    (price * (bps : Int) ≤ I128_MAX →
      safe_mul_div price (bps : Int) 10000 =
        some (price * (bps : Int) / 10000)) ∧
    (I128_MAX < price * (bps : Int) →
      safe_mul_div price (bps : Int) 10000 = none) := by
  have hb : (0 : Int) ≤ (bps : Int) := Int.natCast_nonneg bps
  have hprod : 0 ≤ price * (bps : Int) := mul_nonneg hp.le hb
  have hmin : I128_MIN ≤ price * (bps : Int) := by
    refine le_trans ?_ hprod
    norm_num [I128_MIN]
  constructor
  · intro hle
    have hm : i128_checked_mul price (bps : Int) =
        some (price * (bps : Int)) := by
      unfold i128_checked_mul
      rw [if_pos ⟨hmin, hle⟩]
    simp [safe_mul_div, hm]
    unfold i128_checked_div
    rw [if_neg (by norm_num), if_neg (by simp)]
    rw [Int.tdiv_eq_ediv hprod (by norm_num)]
  · intro hgt
    have hm : i128_checked_mul price (bps : Int) = none := by
      unfold i128_checked_mul
      rw [if_neg (by intro hc; exact absurd hc.2 (not_le.mpr hgt))]
    simp [safe_mul_div, hm]

/-- Witness for C5: `price = 1000`, `royaltyBps = 500` gives royalty 50. -/
theorem safe_mul_div_checked_witness :
    safe_mul_div 1000 ((500 : Nat) : Int) 10000 = some 50 := by
  have h := (safe_mul_div_checked 1000 500 (by norm_num) (by norm_num)).1
    (by decide)
  simpa using h

/-- Counterexample for C5 as stated: at `price = 2^126`,
`royaltyBps = 10000` the mathematical result `floor(price * 10000 / 10000)
= 2^126` is representable in `i128`, yet `safe_mul_div` fails because the
un-widened intermediate product `2^126 * 10000` overflows `i128`. -/
theorem safe_mul_div_no_widening_counterexample :
    safe_mul_div (2 ^ 126) ((10000 : Nat) : Int) 10000 = none ∧
    0 ≤ ((2 : Int) ^ 126 * 10000) / 10000 ∧
    ((2 : Int) ^ 126 * 10000) / 10000 ≤ I128_MAX := by
  refine ⟨by decide, by decide, by decide⟩

/-- Claim C10: with `0 < price ≤ i128::MAX` and stored
`royaltyBps ≤ 10000`, any royalty returned by `safe_mul_div` satisfies
`0 ≤ royalty ≤ price`, so the checked subtraction
`seller_amount = price - royalty` always succeeds — its `Overflow` branch
is unreachable. -/
theorem buy_seller_sub_never_underflows (price : Int) (bps : Nat)
    (royalty : Int) (hp : 0 < price) (hmax : price ≤ I128_MAX)
    (hbps : bps ≤ 10000)
    (h : safe_mul_div price (bps : Int) 10000 = some royalty) :
    0 ≤ royalty ∧ royalty ≤ price ∧
    i128_checked_sub price royalty = some (price - royalty) := by
  obtain ⟨hr, hr0⟩ := safe_mul_div_pos_eq hp.le h
  have hble : (bps : Int) ≤ 10000 := by exact_mod_cast hbps
  have h1 : price * (bps : Int) ≤ price * 10000 :=
    mul_le_mul_of_nonneg_left hble hp.le
  have h2 : price * (bps : Int) / 10000 ≤ price * 10000 / 10000 :=
    Int.ediv_le_ediv (by norm_num) h1
  rw [Int.mul_ediv_cancel price (by norm_num)] at h2
  have hrle : royalty ≤ price := hr ▸ h2
  refine ⟨hr0, hrle, ?_⟩
  have hlo : I128_MIN ≤ price - royalty := by
    have h0 : (0 : Int) ≤ price - royalty := by omega
    refine le_trans ?_ h0
    norm_num [I128_MIN]
  have hhi : price - royalty ≤ I128_MAX := le_trans (by omega) hmax
  unfold i128_checked_sub
  rw [if_pos ⟨hlo, hhi⟩]

/-- Witness for C10 at `price = 1000`, `royaltyBps = 500`, royalty 50. -/
theorem buy_seller_sub_never_underflows_witness :
    i128_checked_sub 1000 50 = some (1000 - 50) :=
  (buy_seller_sub_never_underflows 1000 500 50 (by norm_num) (by decide)
    (by norm_num) (by decide)).2.2

/-- Claim C4: order of `buy` preconditions for an authorized buyer —
`price ≤ 0` gives `InvalidPrice` first; then a missing asset gives
`TokenNotFound`; then `owner == buyer` gives `SameOwner`; then, with no
override and no `DefaultPaymentToken`, `buy` fails with
`InvalidPaymentToken`, with the recorded payment-token invocation list
empty (no token contract was invoked). -/
theorem buy_precondition_order (auth : Address → Bool)
    (tr : Address → Address → Address → Int → Bool) (s : State) (id : Nat)
    (buyer : Address) (price : Int) (ptok : Option Address)
    (hauth : auth buyer = true) :
    (price ≤ 0 →
      buy auth tr s id buyer price ptok = (.err .InvalidPrice, s, [])) ∧
    (0 < price → s.owner id = none →
      buy auth tr s id buyer price ptok = (.err .TokenNotFound, s, [])) ∧
    (0 < price → s.owner id = some buyer →
      buy auth tr s id buyer price ptok = (.err .SameOwner, s, [])) ∧
    (∀ ow cr bps, 0 < price → s.owner id = some ow → ow ≠ buyer →
      s.creator id = some cr → s.royaltyBps id = some bps → ptok = none →
      s.defaultPayToken = none →
      buy auth tr s id buyer price ptok =
        (.err .InvalidPaymentToken, s, [])) := by
  refine ⟨?_, ?_, ?_, ?_⟩
  · intro hple
    simp [buy, requireAuth, hauth, hple]
  · intro hpos hown
    simp [buy, requireAuth, hauth, not_le.mpr hpos, hown]
  · intro hpos hown
    simp [buy, requireAuth, hauth, not_le.mpr hpos, hown]
  · intro ow cr bps hpos hown hne hcr hbps hptok hdef
    subst hptok
    simp [buy, requireAuth, hauth, not_le.mpr hpos, hown, hne, hcr, hbps, hdef]

/-- Witness for C4: the four error cases at concrete inputs (missing asset
id 99; buyer 2 already owns asset 1; `s0nd` has no default token). -/
theorem buy_precondition_order_witness :
    buy authT trT s0 1 5 0 none = (.err .InvalidPrice, s0, []) ∧
    buy authT trT s0 99 5 1000 none = (.err .TokenNotFound, s0, []) ∧
    buy authT trT s0 1 2 1000 none = (.err .SameOwner, s0, []) ∧
    buy authT trT s0nd 1 5 1000 none = (.err .InvalidPaymentToken, s0nd, []) :=
  ⟨(buy_precondition_order authT trT s0 1 5 0 none rfl).1 (by norm_num),
    (buy_precondition_order authT trT s0 99 5 1000 none rfl).2.1
      (by norm_num) rfl,
    (buy_precondition_order authT trT s0 1 2 1000 none rfl).2.2.1
      (by norm_num) rfl,
    (buy_precondition_order authT trT s0nd 1 5 1000 none rfl).2.2.2 2 3 500
      (by norm_num) rfl (by decide) rfl rfl rfl rfl⟩

/-- Claim C7: `transfer` fails with `TokenNotFound` on a missing asset;
with `NotOwner` when the stored owner differs from `from` — for every
authorization oracle, i.e. before `from`'s authorization is consulted;
with `SameOwner` when `from == to` even though `from` is the authorized
owner; and otherwise succeeds, rewriting only the stored owner to `to`,
with no payment involved. -/
theorem transfer_spec (auth : Address → Bool) (s : State) (id : Nat)
    (src dst : Address) :
    (s.owner id = none →
      transfer auth s id src dst = (.err .TokenNotFound, s)) ∧
    (∀ ow, s.owner id = some ow → ow ≠ src →
      transfer auth s id src dst = (.err .NotOwner, s)) ∧
    (s.owner id = some src → auth src = true → src = dst →
      transfer auth s id src dst = (.err .SameOwner, s)) ∧
    (s.owner id = some src → auth src = true → src ≠ dst →
      transfer auth s id src dst =
        (.ok (), { s with owner := upd s.owner id dst })) := by
  refine ⟨?_, ?_, ?_, ?_⟩
  · intro hown
    simp [transfer, hown]
  · intro ow hown hne
    simp [transfer, hown, hne]
  · intro hown hauth heq
    subst heq
    simp [transfer, hown, requireAuth, hauth]
  · intro hown hauth hne
    simp [transfer, hown, requireAuth, hauth, hne]

/-- Witness for C7: an unauthorized non-owner still sees `NotOwner`; the
owner transferring to itself sees `SameOwner`; a proper transfer succeeds. -/
theorem transfer_spec_witness :
    transfer (fun _ => false) s0 1 5 6 = (.err .NotOwner, s0) ∧
    transfer authT s0 1 2 2 = (.err .SameOwner, s0) ∧
    (transfer authT s0 1 2 6).1 = .ok () := by
  refine ⟨(transfer_spec (fun _ => false) s0 1 5 6).2.1 2 rfl (by decide),
    (transfer_spec authT s0 1 2 2).2.2.1 rfl rfl rfl, ?_⟩
  have h := (transfer_spec authT s0 1 2 6).2.2.2 rfl rfl (by decide)
  rw [h]

/-- Counterexample for C8 as stated: an authorized `award_fan_points` call
with `points == 0` on a fan with no `FanPoints` entry succeeds but DOES
write: it creates the entry with value 0 (the `points == 0` early return
exists only in the internal `add_fan_points` helper, not in the public
`award_fan_points`). -/
theorem award_zero_creates_entry_counterexample :
    (award_fan_points authT s0 4 9 0).1 = .ok () ∧
    s0.fanPoints 9 = none ∧
    (award_fan_points authT s0 4 9 0).2.fanPoints 9 = some 0 :=
  ⟨rfl, rfl, rfl⟩

/-- Claim C8 (amended): an authorized `award_fan_points` call with
`points == 0` succeeds and leaves every fan-point balance unchanged, but it
still performs a storage write, storing the (unchanged) balance — creating
a zero entry when none existed.  The internal `add_fan_points` helper used
by `buy`, by contrast, is a true no-op on `points == 0`: it returns the
state unchanged with no write. -/
theorem award_zero_points_spec (auth : Address → Bool) (s : State)
    (granter fan : Address) (hauth : auth granter = true)
    (hwf : get_fan_points s fan ≤ U128_MAX) :
    (award_fan_points auth s granter fan 0).1 = .ok () ∧
    (∀ a, get_fan_points (award_fan_points auth s granter fan 0).2 a =
      get_fan_points s a) ∧
    (award_fan_points auth s granter fan 0).2.fanPoints fan =
      some (get_fan_points s fan) ∧
    add_fan_points s fan 0 = (.ok (), s) := by
  have hadd : u128_checked_add ((s.fanPoints fan).getD 0) 0 =
      some ((s.fanPoints fan).getD 0) := by
    unfold u128_checked_add
    rw [if_pos (by simpa [get_fan_points] using hwf)]
    simp
  refine ⟨?_, ?_, ?_, rfl⟩
  · simp [award_fan_points, requireAuth, hauth, hadd]
  · intro a
    simp only [award_fan_points, requireAuth, hauth, if_true, hadd]
    by_cases ha : a = fan
    · subst ha
      simp [get_fan_points, upd]
    · simp [get_fan_points, upd, ha]
  · simp [award_fan_points, requireAuth, hauth, hadd, get_fan_points, upd]

/-- Witness for C8 (amended): awarding 0 points to fan 9 in `s0` succeeds
and leaves the balance at its previous value. -/
theorem award_zero_points_spec_witness :
    (award_fan_points authT s0 4 9 0).1 = .ok () ∧
    get_fan_points (award_fan_points authT s0 4 9 0).2 9 =
      get_fan_points s0 9 := by
  obtain ⟨h1, h2, _, _⟩ := award_zero_points_spec authT s0 4 9 rfl (by decide)
  exact ⟨h1, h2 9⟩

/-- Counterexample for C2 as stated: with every payment-token transfer
failing (`trF`), a `buy` that reaches the first transfer aborts with a host
trap — the panic of `invoke_contract` — and not with the typed error
`PaymentFailed` (which `src/lib.rs` declares but never constructs). -/
theorem buy_payment_failure_counterexample :
    (buy authT trF s0 1 5 1000 none).1 = Outcome.trap ∧
    (buy authT trF s0 1 5 1000 none).1 ≠ Outcome.err Error.PaymentFailed :=
  ⟨by decide, by decide⟩

/-- Claim C2 (amended): if either of the two payment-token transfer
invocations of a `buy` call fails, the call aborts abruptly (host trap from
the panicking `invoke_contract`) rather than returning the typed error
`PaymentFailed`, and neither the ownership change nor the loyalty-point
accrual is applied: the raw storage state at the abort is the pre-call
state, and so is the committed state. -/
theorem buy_transfer_failure_traps (auth : Address → Bool)
    (tr : Address → Address → Address → Int → Bool) (s : State) (id : Nat)
    (buyer : Address) (price : Int) (ptok : Option Address)
    (ow cr pay : Address) (bps : Nat) (royalty sa : Int)
    (hauth : auth buyer = true) (hp : 0 < price)
    (hOwn : s.owner id = some ow) (hne : ow ≠ buyer)
    (hCr : s.creator id = some cr) (hB : s.royaltyBps id = some bps)
    (hPay : (match ptok with
             | some a => some a
             | none => s.defaultPayToken) = some pay)
    (hmd : safe_mul_div price (bps : Int) 10000 = some royalty)
    (hsub : i128_checked_sub price royalty = some sa)
    (hfail : (0 < royalty ∧ tr pay buyer cr royalty = false) ∨
      ((royalty ≤ 0 ∨ tr pay buyer cr royalty = true) ∧ 0 < sa ∧
        tr pay buyer ow sa = false)) :
    (buy auth tr s id buyer price ptok).1 = .trap ∧
    (buy auth tr s id buyer price ptok).2.1 = s := by
  have hnle : ¬ price ≤ 0 := not_le.mpr hp
  rcases hfail with ⟨hrpos, hft⟩ | ⟨hfirst, hsapos, hst⟩
  · have ht1 : token_transfer_from tr pay buyer cr royalty =
        (.trap, [⟨pay, buyer, cr, royalty⟩]) := by
      simp [token_transfer_from, not_le.mpr hrpos, hft]
    constructor <;>
      simp [buy, requireAuth, hauth, hnle, hOwn, hne, hCr, hB, hPay, hmd,
        hsub, ht1]
  · have h1ok : (token_transfer_from tr pay buyer cr royalty).1 = .ok () := by
      rcases hfirst with hrle | hftt
      · simp [token_transfer_from, hrle]
      · by_cases hr0 : royalty ≤ 0
        · simp [token_transfer_from, hr0]
        · simp [token_transfer_from, hr0, hftt]
    have ht2 : token_transfer_from tr pay buyer ow sa =
        (.trap, [⟨pay, buyer, ow, sa⟩]) := by
      simp [token_transfer_from, not_le.mpr hsapos, hst]
    rcases ht1 : token_transfer_from tr pay buyer cr royalty with ⟨o₁, c₁⟩
    rw [ht1] at h1ok
    simp only at h1ok
    subst h1ok
    constructor <;>
      simp [buy, requireAuth, hauth, hnle, hOwn, hne, hCr, hB, hPay, hmd,
        hsub, ht1, ht2]

/-- Witness for C2 (amended): asset 1 of `s0`, buyer 5, price 1000, all
transfers failing — the call traps with the state untouched. -/
theorem buy_transfer_failure_traps_witness :
    (buy authT trF s0 1 5 1000 none).1 = .trap ∧
    (buy authT trF s0 1 5 1000 none).2.1 = s0 :=
  buy_transfer_failure_traps authT trF s0 1 5 1000 none 2 3 7 500 50 950 rfl
    (by norm_num) rfl (by decide) rfl rfl rfl (by decide) (by decide)
    (Or.inl ⟨by norm_num, rfl⟩)

/-- A successful `add_fan_points` adds exactly `p` to the fan's balance and
leaves the owner map untouched. -/
theorem add_fan_points_ok {s : State} {fan : Address} {p : Nat} {s' : State}
    (h : add_fan_points s fan p = (.ok (), s')) :
    get_fan_points s' fan = get_fan_points s fan + p ∧ s'.owner = s.owner := by
  by_cases hp : p = 0
  · subst hp
    simp only [add_fan_points, if_true, ite_true, reduceIte,
      Prod.mk.injEq, true_and] at h
    subst h
    simp
  · cases hadd : u128_checked_add ((s.fanPoints fan).getD 0) p with
    | none => simp [add_fan_points, hp, hadd] at h
    | some nt =>
      have hnt := u128_checked_add_eq hadd
      simp only [add_fan_points, hp, if_false, ite_false, reduceIte, hadd,
        Prod.mk.injEq, true_and] at h
      subst h
      subst hnt
      exact ⟨by simp [get_fan_points, upd], rfl⟩

/-- Claim C1: every `buy` call that returns `Ok` computed
`royalty = floor(price * royaltyBps / 10000)` from the asset's stored
`royaltyBps`, with `royalty + seller_amount = price` exactly; the stored
owner of the asset becomes the buyer and the buyer's fan-point balance
increases by exactly `price`. -/
theorem buy_ok_spec (auth : Address → Bool)
    (tr : Address → Address → Address → Int → Bool) (s : State) (id : Nat)
    (buyer : Address) (price : Int) (ptok : Option Address) (bps : Nat)
    (hbps : s.royaltyBps id = some bps) (hpmax : price ≤ I128_MAX)
    (hok : (buy auth tr s id buyer price ptok).1 = .ok ()) :
    ∃ royalty seller_amount : Int,
      safe_mul_div price (bps : Int) 10000 = some royalty ∧
      royalty = price * (bps : Int) / 10000 ∧
      i128_checked_sub price royalty = some seller_amount ∧
      royalty + seller_amount = price ∧
      (buy auth tr s id buyer price ptok).2.1.owner id = some buyer ∧
      get_fan_points (buy auth tr s id buyer price ptok).2.1 buyer =
        get_fan_points s buyer + price.toNat := by
  by_cases hauth : auth buyer = true
  case neg => exact absurd hok (by simp [buy, requireAuth, hauth])
  by_cases hple : price ≤ 0
  case pos => exact absurd hok (by simp [buy, requireAuth, hauth, hple])
  have hpos : 0 < price := lt_of_not_ge hple
  cases hOwn : s.owner id with
  | none => exact absurd hok (by simp [buy, requireAuth, hauth, hple, hOwn])
  | some ow =>
  by_cases howb : ow = buyer
  case pos =>
    exact absurd hok (by simp [buy, requireAuth, hauth, hple, hOwn, howb])
  cases hCr : s.creator id with
  | none =>
    exact absurd hok (by simp [buy, requireAuth, hauth, hple, hOwn, howb, hCr])
  | some cr =>
  cases hPay : (match ptok with
                | some a => some a
                | none => s.defaultPayToken) with
  | none =>
    exact absurd hok
      (by simp [buy, requireAuth, hauth, hple, hOwn, howb, hCr, hbps, hPay])
  | some pay =>
  cases hmd : safe_mul_div price (bps : Int) 10000 with
  | none =>
    exact absurd hok (by
      simp [buy, requireAuth, hauth, hple, hOwn, howb, hCr, hbps, hPay, hmd])
  | some royalty =>
  cases hsub : i128_checked_sub price royalty with
  | none =>
    exact absurd hok (by
      simp [buy, requireAuth, hauth, hple, hOwn, howb, hCr, hbps, hPay, hmd,
        hsub])
  | some sa =>
  rcases ht1 : token_transfer_from tr pay buyer cr royalty with ⟨o₁, c₁⟩
  cases o₁ with
  | err e =>
    exact absurd hok (by
      simp [buy, requireAuth, hauth, hple, hOwn, howb, hCr, hbps, hPay, hmd,
        hsub, ht1])
  | trap =>
    exact absurd hok (by
      simp [buy, requireAuth, hauth, hple, hOwn, howb, hCr, hbps, hPay, hmd,
        hsub, ht1])
  | ok u₁ =>
  rcases ht2 : token_transfer_from tr pay buyer ow sa with ⟨o₂, c₂⟩
  cases o₂ with
  | err e =>
    exact absurd hok (by
      simp [buy, requireAuth, hauth, hple, hOwn, howb, hCr, hbps, hPay, hmd,
        hsub, ht1, ht2])
  | trap =>
    exact absurd hok (by
      simp [buy, requireAuth, hauth, hple, hOwn, howb, hCr, hbps, hPay, hmd,
        hsub, ht1, ht2])
  | ok u₂ =>
  rcases ha : add_fan_points { s with owner := upd s.owner id buyer } buyer
      (intAsU128 price) with ⟨o₃, s₂⟩
  cases o₃ with
  | err e =>
    exact absurd hok (by
      simp [buy, requireAuth, hauth, hple, hOwn, howb, hCr, hbps, hPay, hmd,
        hsub, ht1, ht2, hpos, ha])
  | trap =>
    exact absurd hok (by
      simp [buy, requireAuth, hauth, hple, hOwn, howb, hCr, hbps, hPay, hmd,
        hsub, ht1, ht2, hpos, ha])
  | ok u₃ =>
  have hfinal : buy auth tr s id buyer price ptok = (.ok (), s₂, c₁ ++ c₂) := by
    simp [buy, requireAuth, hauth, hple, hOwn, howb, hCr, hbps, hPay, hmd,
      hsub, ht1, ht2, hpos, ha]
  obtain ⟨hfan, hown⟩ := add_fan_points_ok ha
  have hlt : price < (2 : Int) ^ 128 := by
    have h1 : I128_MAX < (2 : Int) ^ 128 := by norm_num [I128_MAX]
    omega
  have hcast : intAsU128 price = price.toNat := by
    unfold intAsU128
    rw [Int.emod_eq_of_lt hpos.le hlt]
  refine ⟨royalty, sa, rfl, (safe_mul_div_pos_eq hpos.le hmd).1, hsub, ?_,
    ?_, ?_⟩
  · have := i128_checked_sub_eq hsub
    omega
  · rw [hfinal]
    show s₂.owner id = some buyer
    rw [hown]
    simp [upd]
  · rw [hfinal]
    show get_fan_points s₂ buyer = get_fan_points s buyer + price.toNat
    rw [hfan, ← hcast]
    rfl

/-- Witness for C1: buyer 5 buys asset 1 of `s0` for 1000 with every
transfer succeeding; ownership moves to 5 and 5 gains 1000 points. -/
theorem buy_ok_spec_witness :
    (buy authT trT s0 1 5 1000 none).2.1.owner 1 = some 5 ∧
    get_fan_points (buy authT trT s0 1 5 1000 none).2.1 5 =
      get_fan_points s0 5 + (1000 : Int).toNat := by
  obtain ⟨r, sa, h1, h2, h3, h4, h5, h6⟩ :=
    buy_ok_spec authT trT s0 1 5 1000 none 500 rfl (by decide) (by decide)
  exact ⟨h5, h6⟩

/-- `add_fan_points` never decreases any fan-point balance. -/
theorem add_fan_points_fan_le (s : State) (f : Address) (p : Nat)
    (a : Address) :
    get_fan_points s a ≤ get_fan_points (add_fan_points s f p).2 a := by
  by_cases hp : p = 0
  · simp [add_fan_points, hp]
  · cases hadd : u128_checked_add ((s.fanPoints f).getD 0) p with
    | none => simp [add_fan_points, hp, hadd]
    | some nt =>
      have hnt := u128_checked_add_eq hadd
      subst hnt
      by_cases ha : a = f
      · subst ha
        simp [add_fan_points, hp, hadd, get_fan_points, upd]
      · simp [add_fan_points, hp, hadd, get_fan_points, upd, ha]

/-- `next_id` does not touch the fan-point map. -/
theorem next_id_fanPoints (s : State) :
    (next_id s).2.fanPoints = s.fanPoints := by
  cases h : u128_checked_add (s.nextId.getD 0) 1 <;> simp [next_id, h]

/-- A failing `next_id` returns the state unchanged. -/
theorem next_id_err {s s₁ : State} {e : Error}
    (h : next_id s = (.err e, s₁)) : s₁ = s := by
  cases hadd : u128_checked_add (s.nextId.getD 0) 1 with
  | none =>
    simp only [next_id, hadd, Prod.mk.injEq] at h
    exact h.2.symm
  | some nxt => simp [next_id, hadd] at h

/-- `get_info` performs no writes. -/
theorem get_info_state (s : State) (id : Nat) : (get_info s id).2 = s := by
  unfold get_info
  repeat' split
  all_goals rfl

/-- The raw state a `buy` call returns is either the initial state or the
result of the final `add_fan_points` on the owner-rewritten state. -/
theorem buy_state_cases (auth : Address → Bool)
    (tr : Address → Address → Address → Int → Bool) (s : State) (id : Nat)
    (buyer : Address) (price : Int) (ptok : Option Address) :
    (buy auth tr s id buyer price ptok).2.1 = s ∨
    ∃ p, (buy auth tr s id buyer price ptok).2.1 =
      (add_fan_points { s with owner := upd s.owner id buyer } buyer p).2 := by
  unfold buy requireAuth
  repeat' split
  all_goals dsimp only
  all_goals repeat' split
  all_goals try (left; rfl)
  all_goals right
  all_goals rename_i heq
  all_goals exact ⟨_, by rw [heq]⟩

/-- Claim C9: fan-point balances are additive — no public operation ever
decreases any principal's balance (the `get_fan_points` read itself touches
no state, recorded by the trivial fifth conjunct). -/
theorem fan_points_additive (auth : Address → Bool)
    (tr : Address → Address → Address → Int → Bool) (s : State)
    (a : Address) :
    (∀ admin token,
      get_fan_points s a ≤
        get_fan_points (set_default_payment_token auth s admin token).2 a) ∧
    (∀ cr io bps u,
      get_fan_points s a ≤ get_fan_points (mint auth s cr io bps u).2 a) ∧
    (∀ id, get_fan_points s a ≤ get_fan_points (get_info s id).2 a) ∧
    (∀ id src dst,
      get_fan_points s a ≤ get_fan_points (transfer auth s id src dst).2 a) ∧
    (get_fan_points s a ≤ get_fan_points s a) ∧
    (∀ g f p,
      get_fan_points s a ≤
        get_fan_points (award_fan_points auth s g f p).2 a) ∧
    (∀ id buyer price ptok,
      get_fan_points s a ≤
        get_fan_points (buy auth tr s id buyer price ptok).2.1 a) := by
  refine ⟨?_, ?_, ?_, ?_, le_refl _, ?_, ?_⟩
  · intro admin token
    cases hA : auth admin <;>
      simp [set_default_payment_token, requireAuth, hA, get_fan_points]
  · intro cr io bps u
    cases hA : auth cr with
    | false => simp [mint, requireAuth, hA]
    | true =>
      by_cases hb : 10000 < bps
      · simp [mint, requireAuth, hA, hb]
      · rcases hN : next_id s with ⟨o, s₁⟩
        have hfp : s₁.fanPoints = s.fanPoints := by
          have h := next_id_fanPoints s
          rw [hN] at h
          exact h
        cases o <;>
          simp [mint, requireAuth, hA, hb, hN, get_fan_points, hfp]
  · intro id
    rw [get_info_state]
  · intro id src dst
    unfold transfer requireAuth
    repeat' split
    all_goals exact le_refl _
  · intro g f p
    cases hA : auth g with
    | false => simp [award_fan_points, requireAuth, hA]
    | true =>
      cases hadd : u128_checked_add ((s.fanPoints f).getD 0) p with
      | none => simp [award_fan_points, requireAuth, hA, hadd]
      | some nt =>
        have hnt := u128_checked_add_eq hadd
        subst hnt
        by_cases ha : a = f
        · subst ha
          simp [award_fan_points, requireAuth, hA, hadd, get_fan_points, upd]
        · simp [award_fan_points, requireAuth, hA, hadd, get_fan_points,
            upd, ha]
  · intro id buyer price ptok
    rcases buy_state_cases auth tr s id buyer price ptok with h | ⟨p, h⟩
    · rw [h]
    · rw [h]
      exact add_fan_points_fan_le
        { s with owner := upd s.owner id buyer } buyer p a

/-- Claim C3: an operation that returns a typed error leaves the observable
state exactly as before the call.  For `mint`, `get_info`, `transfer` and
`award_fan_points` even the raw storage at the error return equals the
pre-call state; for `buy` the property holds for the committed state (the
host discards the writes of a failed invocation — relevant because `buy`
writes the owner before `add_fan_points` may still fail with `Overflow`). -/
theorem error_state_unchanged (auth : Address → Bool)
    (tr : Address → Address → Address → Int → Bool) (s : State) :
    (∀ cr io bps u e, (mint auth s cr io bps u).1 = .err e →
      (mint auth s cr io bps u).2 = s) ∧
    (∀ id e, (get_info s id).1 = .err e → (get_info s id).2 = s) ∧
    (∀ id src dst e, (transfer auth s id src dst).1 = .err e →
      (transfer auth s id src dst).2 = s) ∧
    (∀ g f p e, (award_fan_points auth s g f p).1 = .err e →
      (award_fan_points auth s g f p).2 = s) ∧
    (∀ id buyer price ptok e,
      (buy auth tr s id buyer price ptok).1 = .err e →
      committed s (buy auth tr s id buyer price ptok).1
        (buy auth tr s id buyer price ptok).2.1 = s) := by
  refine ⟨?_, ?_, ?_, ?_, ?_⟩
  · intro cr io bps u e h
    cases hA : auth cr with
    | false => simp [mint, requireAuth, hA]
    | true =>
      by_cases hb : 10000 < bps
      · simp [mint, requireAuth, hA, hb]
      · rcases hN : next_id s with ⟨o, s₁⟩
        cases o with
        | ok idv => simp [mint, requireAuth, hA, hb, hN] at h
        | err e₁ =>
          have hs := next_id_err hN
          subst hs
          simp [mint, requireAuth, hA, hb, hN]
        | trap => simp [mint, requireAuth, hA, hb, hN] at h
  · intro id e h
    exact get_info_state s id
  · intro id src dst e h
    cases hO : s.owner id with
    | none => simp [transfer, hO]
    | some ow =>
      by_cases hos : ow = src
      · cases hA : auth src with
        | false => simp [transfer, hO, hos, requireAuth, hA]
        | true =>
          by_cases hsd : src = dst
          · subst hsd
            simp [transfer, hO, hos, requireAuth, hA]
          · simp [transfer, hO, hos, hsd, requireAuth, hA] at h
      · simp [transfer, hO, hos]
  · intro g f p e h
    cases hA : auth g with
    | false => simp [award_fan_points, requireAuth, hA]
    | true =>
      cases hadd : u128_checked_add ((s.fanPoints f).getD 0) p with
      | none => simp [award_fan_points, requireAuth, hA, hadd]
      | some nt => simp [award_fan_points, requireAuth, hA, hadd] at h
  · intro id buyer price ptok e h
    rw [h]
    rfl

/-- Witness for C3: a transfer of a missing asset and an overflowing award
both leave `s0` unchanged. -/
theorem error_state_unchanged_witness :
    (transfer authT s0 99 2 6).2 = s0 ∧
    (award_fan_points authT s0 4 9 (2 ^ 128)).2 = s0 :=
  ⟨(error_state_unchanged authT trT s0).2.2.1 99 2 6 .TokenNotFound
      (by decide),
    (error_state_unchanged authT trT s0).2.2.2.1 4 9 (2 ^ 128) .Overflow
      (by decide)⟩

/-- The inputs of one `mint` call. -/
structure MintReq where
  creator : Address
  initial_owner : Address
  royalty_bps : Nat
  uri : ContractBytes
  deriving DecidableEq

/-- A sequence of `mint` calls, stopping at the first failure. -/
def mintMany (auth : Address → Bool) (s : State) :
    List MintReq → Outcome (List Nat) × State
  | [] => (.ok [], s)
  | r :: rs =>
    match mint auth s r.creator r.initial_owner r.royalty_bps r.uri with
    | (.ok id, s₁) =>
      match mintMany auth s₁ rs with
      | (.ok ids, s₂) => (.ok (id :: ids), s₂)
      | (.err e, s₂) => (.err e, s₂)
      | (.trap, s₂) => (.trap, s₂)
    | (.err e, s₁) => (.err e, s₁)
    | (.trap, s₁) => (.trap, s₁)

/-- A successful `mint` returns counter + 1 as the new id, bumps the
counter, writes exactly the four supplied fields at the new id, and leaves
every other id's fields alone. -/
theorem mint_ok_spec {auth : Address → Bool} {s : State} {cr io : Address}
    {bps : Nat} {u : ContractBytes} {idv : Nat} {s₁ : State}
    (h : mint auth s cr io bps u = (.ok idv, s₁)) :
    idv = s.nextId.getD 0 + 1 ∧ s₁.nextId = some (s.nextId.getD 0 + 1) ∧
    s₁.owner idv = some io ∧ s₁.creator idv = some cr ∧
    s₁.royaltyBps idv = some bps ∧ s₁.uri idv = some u ∧
    (∀ k, k ≠ idv →
      s₁.owner k = s.owner k ∧ s₁.creator k = s.creator k ∧
      s₁.royaltyBps k = s.royaltyBps k ∧ s₁.uri k = s.uri k) := by
  cases hA : auth cr with
  | false => simp [mint, requireAuth, hA] at h
  | true =>
    by_cases hb : 10000 < bps
    · simp [mint, requireAuth, hA, hb] at h
    · cases hadd : u128_checked_add (s.nextId.getD 0) 1 with
      | none => simp [mint, requireAuth, hA, hb, next_id, hadd] at h
      | some nxt =>
        have hnxt := u128_checked_add_eq hadd
        subst hnxt
        simp only [mint, requireAuth, hA, if_true, hb, ite_false, reduceIte,
          next_id, hadd, Prod.mk.injEq, Outcome.ok.injEq] at h
        obtain ⟨hid, hs⟩ := h
        subst hid
        subst hs
        refine ⟨rfl, rfl, by simp [upd], by simp [upd], by simp [upd],
          by simp [upd], ?_⟩
        intro k hk
        exact ⟨by simp [upd, hk], by simp [upd, hk], by simp [upd, hk],
          by simp [upd, hk]⟩

/-- A successful `mintMany` run assigns the consecutive ids
`counter+1, ..., counter+n`, advances the counter by `n`, stores each
request's fields at its id, and leaves ids at or below the starting counter
untouched. -/
theorem mintMany_ok_spec (auth : Address → Bool) :
    ∀ (reqs : List MintReq) (s : State) (ids : List Nat) (s' : State),
      mintMany auth s reqs = (.ok ids, s') →
      ids = List.range' (s.nextId.getD 0 + 1) reqs.length ∧
      s'.nextId.getD 0 = s.nextId.getD 0 + reqs.length ∧
      (∀ j, (hj : j < reqs.length) →
        s'.owner (s.nextId.getD 0 + 1 + j) =
          some (reqs.get ⟨j, hj⟩).initial_owner ∧
        s'.creator (s.nextId.getD 0 + 1 + j) =
          some (reqs.get ⟨j, hj⟩).creator ∧
        s'.royaltyBps (s.nextId.getD 0 + 1 + j) =
          some (reqs.get ⟨j, hj⟩).royalty_bps ∧
        s'.uri (s.nextId.getD 0 + 1 + j) = some (reqs.get ⟨j, hj⟩).uri) ∧
      (∀ k, k ≤ s.nextId.getD 0 →
        s'.owner k = s.owner k ∧ s'.creator k = s.creator k ∧
        s'.royaltyBps k = s.royaltyBps k ∧ s'.uri k = s.uri k) := by
  intro reqs
  induction reqs with
  | nil =>
    intro s ids s' h
    simp only [mintMany, Prod.mk.injEq, Outcome.ok.injEq] at h
    obtain ⟨hids, hs⟩ := h
    subst hids
    subst hs
    refine ⟨by simp, by simp, ?_, ?_⟩
    · intro j hj
      exact absurd hj (by simp)
    · intro k hk
      exact ⟨rfl, rfl, rfl, rfl⟩
  | cons r rs ih =>
    intro s ids s' h
    rcases hm : mint auth s r.creator r.initial_owner r.royalty_bps r.uri
      with ⟨o₁, s₁⟩
    cases o₁ with
    | err e => simp [mintMany, hm] at h
    | trap => simp [mintMany, hm] at h
    | ok idv =>
      rcases hmm : mintMany auth s₁ rs with ⟨o₂, s₂⟩
      cases o₂ with
      | err e => simp [mintMany, hm, hmm] at h
      | trap => simp [mintMany, hm, hmm] at h
      | ok ids₂ =>
        simp only [mintMany, hm, hmm, Prod.mk.injEq, Outcome.ok.injEq] at h
        obtain ⟨hids, hs⟩ := h
        subst hids
        subst hs
        obtain ⟨hid, hnxid, ho, hc, hb, hu, hfr⟩ := mint_ok_spec hm
        obtain ⟨hids₂, hnx₂, hfields₂, hframe₂⟩ := ih s₁ ids₂ s₂ hmm
        have hc1 : s₁.nextId.getD 0 = s.nextId.getD 0 + 1 := by
          rw [hnxid]
          rfl
        rw [hc1] at hids₂ hnx₂ hfields₂ hframe₂
        subst hid
        refine ⟨?_, by simp only [List.length_cons]; omega, ?_, ?_⟩
        · simp only [List.length_cons]
          rw [List.range'_succ, hids₂]
        · intro j hj
          cases j with
          | zero =>
            have hfr₂ := hframe₂ (s.nextId.getD 0 + 1) (by omega)
            simp only [Nat.add_zero, List.get]
            rw [hfr₂.1, hfr₂.2.1, hfr₂.2.2.1, hfr₂.2.2.2]
            exact ⟨ho, hc, hb, hu⟩
          | succ j' =>
            have hj' : j' < rs.length := by
              simpa [Nat.succ_lt_succ_iff] using hj
            have hfe := hfields₂ j' hj'
            have hidx : s.nextId.getD 0 + 1 + (j' + 1) =
                s.nextId.getD 0 + 1 + 1 + j' := by omega
            rw [hidx]
            simpa [List.get] using hfe
        · intro k hk
          have hfr₂ := hframe₂ k (by omega)
          have hfrk := hfr k (by omega)
          rw [hfr₂.1, hfr₂.2.1, hfr₂.2.2.1, hfr₂.2.2.2]
          exact hfrk

/-- Claim C6: starting from the fresh instance, a sequence of successful
`mint` calls yields the ids `1, 2, ..., n` in order (the counter starts at
0, increments by 1 per mint, and the new counter value is the minted id),
and after the sequence `get_info` on the j-th id returns exactly the
owner, creator, royaltyBps and uri supplied to the j-th mint. -/
theorem mint_sequence_spec (auth : Address → Bool) (reqs : List MintReq)
    (ids : List Nat)
    (hok : (mintMany auth initialState reqs).1 = .ok ids) :
    ids = List.range' 1 reqs.length ∧
    ((mintMany auth initialState reqs).2).nextId.getD 0 = reqs.length ∧
    (∀ j, (hj : j < reqs.length) →
      (get_info (mintMany auth initialState reqs).2 (j + 1)).1 =
        .ok ⟨j + 1, (reqs.get ⟨j, hj⟩).initial_owner,
          (reqs.get ⟨j, hj⟩).creator, (reqs.get ⟨j, hj⟩).royalty_bps,
          (reqs.get ⟨j, hj⟩).uri⟩) := by
  have hpair : mintMany auth initialState reqs =
      (.ok ids, (mintMany auth initialState reqs).2) := by
    rw [← hok]
  obtain ⟨h1, h2, h3, _⟩ :=
    mintMany_ok_spec auth reqs initialState ids _ hpair
  refine ⟨h1, ?_, ?_⟩
  · rw [h2]
    show 0 + reqs.length = reqs.length
    omega
  intro j hj
  have hfield := h3 j hj
  have hidx : initialState.nextId.getD 0 + 1 + j = j + 1 := by
    show 0 + 1 + j = j + 1
    omega
  rw [hidx] at hfield
  obtain ⟨ho, hc, hb, hu⟩ := hfield
  simp [get_info, ho, hc, hb, hu]

/-- Two mint requests used by the C6 witness. -/
def demoReqs : List MintReq := [⟨3, 2, 500, [1]⟩, ⟨4, 6, 0, []⟩]

/-- Witness for C6: two mints from the fresh instance give ids 1 and 2 and
`get_info` returns the supplied fields. -/
theorem mint_sequence_spec_witness :
    (get_info (mintMany authT initialState demoReqs).2 1).1 =
      .ok ⟨1, 2, 3, 500, [1]⟩ ∧
    (get_info (mintMany authT initialState demoReqs).2 2).1 =
      .ok ⟨2, 6, 4, 0, []⟩ := by
  obtain ⟨h1, h2, h3⟩ := mint_sequence_spec authT demoReqs [1, 2] (by decide)
  exact ⟨h3 0 (by decide), h3 1 (by decide)⟩

end FanRewards
